import Mathlib

/-!
# Boot-configuration-table (BCT) decision logic of the T214 boot ROM

A shallow embedding of

* `include/t214/nvboot_config.h` : the frozen tuning constants of the boot ROM,
* `include/t214/nvboot_bct.h` : the BCT record, the bootloader descriptor, the
  buffer-size macro and the documented search sequence,
* `nvboot/core/sdram/nvboot_sdram_wrapper.c` : `NvBootBRSdramQueryTotalSize`,

together with models of the BCT search, BCT validation, parameter selection and
bootloader loading, whose implementation files are not part of the tree and
which are therefore written down from the specification.
-/

namespace T214

/-! ## Constants of `nvboot_config.h` -/

/-- Maximum number of device parameter sets in the BCT (`nvboot_config.h:39`). -/
def NVBOOT_BCT_MAX_PARAM_SETS : Nat := 1

/-- Maximum number of SDRAM parameter sets in the BCT (`nvboot_config.h:45`). -/
def NVBOOT_BCT_MAX_SDRAM_SETS : Nat := 4

/-- Number of bytes in the Reserved area of the BCT (`nvboot_config.h:82`). -/
def NVBOOT_BCT_RESERVED_SIZE : Nat := 388

/-- Maximum page size of any secondary boot device (`nvboot_config.h:116`). -/
def NVBOOT_MAX_SECONDARY_BOOT_DEVICE_PAGE_SIZE : Nat := 2048

/-- Maximum number of bootloader descriptions in the BCT (`nvboot_config.h:129`). -/
def NVBOOT_MAX_BOOTLOADERS : Nat := 4

/-- Minimum block size in log2(bytes) (`nvboot_config.h:135`). -/
def NVBOOT_MIN_BLOCK_SIZE_LOG2 : Nat := 8

/-- Maximum block size in log2(bytes) (`nvboot_config.h:141`). -/
def NVBOOT_MAX_BLOCK_SIZE_LOG2 : Nat := 23

/-- Minimum page size in log2(bytes) (`nvboot_config.h:147`). -/
def NVBOOT_MIN_PAGE_SIZE_LOG2 : Nat := 8

/-- Maximum page size in log2(bytes) (`nvboot_config.h:153`). -/
def NVBOOT_MAX_PAGE_SIZE_LOG2 : Nat := 14

/-- The macro `(1 << (NVBOOT_MAX_PAGE_SIZE_LOG2))` (`nvboot_config.h:158`). -/
def NVBOOT_MAX_PAGE_SIZE : Nat := 1 <<< NVBOOT_MAX_PAGE_SIZE_LOG2

/-- The macro `(1 << (NVBOOT_MIN_PAGE_SIZE_LOG2))` (`nvboot_config.h:163`). -/
def NVBOOT_MIN_PAGE_SIZE : Nat := 1 <<< NVBOOT_MIN_PAGE_SIZE_LOG2

/-- Maximum number of blocks to search for BCTs (`nvboot_config.h:184`). -/
def NVBOOT_MAX_BCT_SEARCH_BLOCKS : Nat := 64

/-- Number of 32-bit words in the CustomerData area of the BCT
(`nvboot_config.h:65`). -/
def NVBOOT_BCT_CUSTOMER_DATA_WORDS : Nat := 52

/-- Number of bytes in the CustomerData area of the BCT, the macro
`(NVBOOT_BCT_CUSTOMER_DATA_WORDS * 4)` (`nvboot_config.h:70-71`). -/
def NVBOOT_BCT_CUSTOMER_DATA_SIZE : Nat := NVBOOT_BCT_CUSTOMER_DATA_WORDS * 4

/-- Number of maximum-sized pages needed by the BCT (`nvboot_config.h:101`). -/
def NVBOOT_BCT_REQUIRED_NUM_PAGES : Nat := 1

/-- Maximum page size needed by the BCT (`nvboot_config.h:105`). -/
def NVBOOT_BCT_REQUIRED_PAGE_SIZE : Nat := 8192

/-- Required BCT size in bytes (`nvboot_config.h:110`); the product of the two
constants above is only a comment on the next line of the header. -/
def NVBOOT_BCT_REQUIRED_SIZE : Nat := 10240

/-- Starting physical address of the bootloader IRAM buffer, the macro
`(NV_ADDRESS_MAP_IRAM_A_BASE + 0x10000)` (`nvboot_config.h:241`).  The address-map
constant comes from `project.h`, outside the tree, and is an argument. -/
def NVBOOT_BL_IRAM_START (NV_ADDRESS_MAP_IRAM_A_BASE : Int) : Int :=
  NV_ADDRESS_MAP_IRAM_A_BASE + 0x10000

/-- Ending physical address of IRAM, the macro `(NV_ADDRESS_MAP_IRAM_D_LIMIT)`
(`nvboot_config.h:246`), with the address-map constant as an argument. -/
def NVBOOT_BL_IRAM_END (NV_ADDRESS_MAP_IRAM_D_LIMIT : Int) : Int :=
  NV_ADDRESS_MAP_IRAM_D_LIMIT

/-- Size of IRAM in bytes, the macro
`(NVBOOT_BL_IRAM_END - NVBOOT_BL_IRAM_START+1)` (`nvboot_config.h:256`). -/
def NVBOOT_BL_IRAM_SIZE (NV_ADDRESS_MAP_IRAM_A_BASE NV_ADDRESS_MAP_IRAM_D_LIMIT : Int) :
    Int :=
  NVBOOT_BL_IRAM_END NV_ADDRESS_MAP_IRAM_D_LIMIT
    - NVBOOT_BL_IRAM_START NV_ADDRESS_MAP_IRAM_A_BASE + 1

/-- Modelled from the spec: the enumeration of AES key slots is declared outside
the tree; its constants are named after the number of the slot, which is the
value taken here.  This is key slot 0. -/
def NvBootAesKeySlot_0 : Nat := 0

/-- Modelled from the spec: key slot 4 of the enumeration of AES key slots, which
is declared outside the tree. -/
def NvBootAesKeySlot_4 : Nat := 4

/-- Key slot used for encryption with the SBK (`nvboot_config.h:325`). -/
def NVBOOT_SBK_ENCRYPT_SLOT : Nat := NvBootAesKeySlot_0

/-- Key slot used for decryption with the SBK (`nvboot_config.h:329`). -/
def NVBOOT_SBK_DECRYPT_SLOT : Nat := NVBOOT_SBK_ENCRYPT_SLOT

/-- Key slot used for encryption with the SSK (`nvboot_config.h:359`). -/
def NVBOOT_SSK_ENCRYPT_SLOT : Nat := NvBootAesKeySlot_4

/-- Key slot used for decryption with the SSK (`nvboot_config.h:363`). -/
def NVBOOT_SSK_DECRYPT_SLOT : Nat := NVBOOT_SSK_ENCRYPT_SLOT

/-! ## `nvboot_bct.h` : the buffer-size macro -/

/-- The macro `MIN_BCT_BUFFER_SIZE` (`nvboot_bct.h:497`), as a function of
`sizeof(NvBootConfigTable)`.  The size of the record is a compile-time constant
of a few kilobytes, so the arithmetic is that of the naturals. -/
def MIN_BCT_BUFFER_SIZE (sizeofNvBootConfigTable : Nat) : Nat :=
  ((sizeofNvBootConfigTable + NVBOOT_MAX_SECONDARY_BOOT_DEVICE_PAGE_SIZE - 1)
      / NVBOOT_MAX_SECONDARY_BOOT_DEVICE_PAGE_SIZE)
    * NVBOOT_MAX_SECONDARY_BOOT_DEVICE_PAGE_SIZE

/-! ## `nvboot_sdram_wrapper.c` -/

/-- Modelled from the spec: the macro `NV_MIN` is declared in `nvcommon.h`, outside
the tree; it is the minimum of its two arguments, `(((a) < (b)) ? (a) : (b))`. -/
def NV_MIN (a b : Nat) : Nat := if a < b then a else b

/-- The function `NvBootBRSdramQueryTotalSize` (`nvboot_sdram_wrapper.c:21-30`).

The two address-map constants come from `project.h` and the megabyte count from
`NvBootSdramQueryTotalMB(NV_TRUE)`; none of the three is in the tree, so they are
arguments.  All quantities are `NvU32`: the subtraction and the final left shift
are taken modulo `2^32`. -/
def NvBootBRSdramQueryTotalSize
    (NV_ADDRESS_MAP_EMEM_LO_LIMIT NV_ADDRESS_MAP_EMEM_LO_BASE : Nat)
    (NvBootSdramQueryTotalMB : Nat) : Nat :=
  let SdramTotalSizeMB :=
    NV_MIN
      (((NV_ADDRESS_MAP_EMEM_LO_LIMIT + 2 ^ 32 - NV_ADDRESS_MAP_EMEM_LO_BASE % 2 ^ 32)
          % 2 ^ 32) >>> 20)
      NvBootSdramQueryTotalMB
  (SdramTotalSizeMB <<< 20) % 2 ^ 32

/-- The low EMEM window of `NvBootBRSdramQueryTotalSize` as an `NvU32`, the
difference `NV_ADDRESS_MAP_EMEM_LO_LIMIT - NV_ADDRESS_MAP_EMEM_LO_BASE` taken
modulo `2^32` as in the body of the function. -/
def ememLoWindow (NV_ADDRESS_MAP_EMEM_LO_LIMIT NV_ADDRESS_MAP_EMEM_LO_BASE : Nat) : Nat :=
  (NV_ADDRESS_MAP_EMEM_LO_LIMIT + 2 ^ 32 - NV_ADDRESS_MAP_EMEM_LO_BASE % 2 ^ 32) % 2 ^ 32

/-! ## `nvboot_bct.h` : the records -/

/-- The record `NvBootLoaderInfo` (`nvboot_bct.h:205-223`): one entry for each
copy of a bootloader stored on the device.  `Reserved` is the one-word array
`Reserved[1]`. -/
structure NvBootLoaderInfo where
  StartBlock : Nat
  StartPage : Nat
  Version : Nat
  Reserved : Nat
  deriving DecidableEq, Repr

/-- The record `NvBootConfigTable` (`nvboot_bct.h:291-493`), field by field and in
declaration order.  Members whose C types are declared in headers outside the
tree (`NvBootPublicCryptoParameters`, `NvBootCryptoSignatures`, `NvBootECID`,
`NvBootDevParams`, `NvBootSdramParams`) and the word or byte arrays are carried
as lists of numbers; `NvU32` scalars are naturals. -/
structure NvBootConfigTable where
  Pcp : List Nat
  Signatures : List Nat
  SecProvisioningKeyWrapKey : List Nat
  SecProvisioningKeyNum_Insecure : Nat
  Unsigned_Padding : List Nat
  CustomerData : List Nat
  RandomAesBlock : List Nat
  BootConfig1 : List Nat
  Signed_CustomerData1 : List Nat
  RandomAesBlock2 : List Nat
  UniqueChipId : List Nat
  BootDataVersion : Nat
  BlockSizeLog2 : Nat
  PageSizeLog2 : Nat
  PartitionSize : Nat
  NumParamSets : Nat
  DevType : List Nat
  DevParams : List (List Nat)
  NumSdramSets : Nat
  SdramParams : List (List Nat)
  BootLoadersUsed : Nat
  BootLoader : List NvBootLoaderInfo
  SecureDebugControl_Not_ECID_Checked : Nat
  SecureDebugControl_ECID_Checked : Nat
  BootConfig2 : List Nat
  Signed_CustomerData2 : List Nat
  SecProvisioningKeyNum_Secure : Nat
  Reserved : List Nat
  deriving DecidableEq, Repr

/-- The padding pattern required in `NvBootConfigTable.Reserved`
(`nvboot_bct.h:110-111`, `489-491`): one byte of `0x80` followed by bytes of
`0x00`, filling the `NVBOOT_BCT_RESERVED_SIZE` bytes of the field. -/
def paddingPattern : List Nat :=
  0x80 :: List.replicate (NVBOOT_BCT_RESERVED_SIZE - 1) 0x00

/-! ## `nvboot_bct.h` : sizes of members -/

/-- Size in bytes of an `NvU32`. -/
def sizeof_NvU32 : Nat := 4

/-- Size in bytes of an `NvU8`. -/
def sizeof_NvU8 : Nat := 1

/-- Modelled from the spec: the AES block length constants are declared outside
the tree; all cryptographic operations use 128-bit AES (`nvboot_bct.h:78`), so a
block is four 32-bit words. -/
def NVBOOT_AES_BLOCK_LENGTH_WORDS : Nat := 128 / 32

/-- The AES block length in bytes. -/
def NVBOOT_AES_BLOCK_LENGTH_BYTES : Nat := NVBOOT_AES_BLOCK_LENGTH_WORDS * sizeof_NvU32

/-- Size of the record `NvBootLoaderInfo` (`nvboot_bct.h:205-223`): the members
`StartBlock`, `StartPage`, `Version` and `Reserved[1]`, each `NvU32`. -/
def sizeof_NvBootLoaderInfo : Nat :=
  sizeof_NvU32 + sizeof_NvU32 + sizeof_NvU32 + 1 * sizeof_NvU32

/-- Size of the unsigned members of `NvBootConfigTable` whose size is fixed by
`nvboot_bct.h` (`nvboot_bct.h:322-364`): `SecProvisioningKeyWrapKey[8]`,
`SecProvisioningKeyNum_Insecure`, `Unsigned_Padding[3]` and
`CustomerData[NVBOOT_BCT_CUSTOMER_DATA_SIZE]`. -/
def sizeof_fixedUnsignedMembers : Nat :=
  8 * sizeof_NvU32 + sizeof_NvU32 + 3 * sizeof_NvU32
    + NVBOOT_BCT_CUSTOMER_DATA_SIZE * sizeof_NvU8

/-- Offset of `RandomAesBlock`, the first member of the signed section, in
`NvBootConfigTable`: the members before it, in declaration order
(`nvboot_bct.h:314-364`).  The sizes of `Pcp` and `Signatures` are fixed by
headers outside the tree and are arguments.  The members are laid out back to
back: each is word- or byte-aligned and follows members whose sizes are whole
words. -/
def offsetof_RandomAesBlock (sizeofPcp sizeofSignatures : Nat) : Nat :=
  sizeofPcp + sizeofSignatures + sizeof_fixedUnsignedMembers

/-! ## The documented search sequence (`nvboot_bct.h:121-135`) -/

/-- The two slots of Block 0 in the documented sequence: `Block 0, Slot 0` and
`Block 0, Slot 1`. -/
def block0Slots : List Nat := [0, 1]

/-- The journal blocks of the documented sequence, `Block 1` up to `Block 63`, the
last block the documentation lists. -/
def journalBlocks : List Nat := (List.range 63).map (fun j => j + 1)

/-- The slots of one journal block, `Slot 0` up to `Slot N`. -/
def journalSlots (N : Nat) : List Nat := List.range (N + 1)

/-- Modelled from the spec: the BCT search itself (`nvboot_bct.c`) is not in the
tree; this is the search sequence as the documentation of `nvboot_bct.h:121-135`
lists it, as (block, slot) pairs: Block 0 Slots 0 and 1, then Blocks 1 to 63 with
Slots 0 to `N` each. -/
def searchSequence (N : Nat) : List (Nat × Nat) :=
  block0Slots.map (fun s => (0, s))
    ++ journalBlocks.flatMap (fun b => (journalSlots N).map (fun s => (b, s)))

/-! ## BCT validation -/

/-- Modelled from the spec: the Crypto Validator is an external collaborator that
is consumed, not implemented; it gives the verdict of the signature check of a
candidate table and decrypts its encrypted sub-region (`none` is a failure of the
crypto operation). -/
structure CryptoValidator where
  verify_signature : NvBootConfigTable → Bool
  decrypt : NvBootConfigTable → Option NvBootConfigTable

/-- Modelled from the spec: what the current security mode fixes for validation,
namely whether the configuration requires decryption and the data-structure
version the boot ROM expects (its constant is declared outside the tree). -/
structure SecurityMode where
  requiresDecryption : Bool
  expectedBootDataVersion : Nat

/-- Modelled from the spec: the structural invariants of the Table Model (version,
block and page size logs within their bounds, partition size a multiple of the
block size, parameter-set and bootloader counts within their maxima, Reserved
equal to the padding pattern byte for byte). -/
def structuralInvariants (mode : SecurityMode) (t : NvBootConfigTable) : Bool :=
  decide (t.BootDataVersion = mode.expectedBootDataVersion)
    && decide (NVBOOT_MIN_BLOCK_SIZE_LOG2 ≤ t.BlockSizeLog2)
    && decide (t.BlockSizeLog2 ≤ NVBOOT_MAX_BLOCK_SIZE_LOG2)
    && decide (NVBOOT_MIN_PAGE_SIZE_LOG2 ≤ t.PageSizeLog2)
    && decide (t.PageSizeLog2 ≤ NVBOOT_MAX_PAGE_SIZE_LOG2)
    && decide (t.PartitionSize % 2 ^ t.BlockSizeLog2 = 0)
    && decide (t.NumParamSets ≤ NVBOOT_BCT_MAX_PARAM_SETS)
    && decide (t.NumSdramSets ≤ NVBOOT_BCT_MAX_SDRAM_SETS)
    && decide (t.BootLoadersUsed ≤ NVBOOT_MAX_BOOTLOADERS)
    && decide (t.Reserved = paddingPattern)

/-- Modelled from the spec: the table on which the structural checks run, the
candidate itself or, if the configuration requires decryption, the candidate with
its encrypted sub-region decrypted (`none` when the crypto operation fails). -/
def decryptStage (cv : CryptoValidator) (mode : SecurityMode)
    (raw : NvBootConfigTable) : Option NvBootConfigTable :=
  if mode.requiresDecryption then cv.decrypt raw else some raw

/-- Modelled from the spec: `validate(raw_bytes) -> TableModel | Invalid`, the
validation of one candidate (the function is in `nvboot_bct.c`, not in the
tree).  The signature over the signed region is checked first, then the table is
decrypted if required, then the structural invariants are applied; `none` is
`Invalid`. -/
def validate (cv : CryptoValidator) (mode : SecurityMode)
    (raw : NvBootConfigTable) : Option NvBootConfigTable :=
  if cv.verify_signature raw then
    match decryptStage cv mode raw with
    | none => none
    | some t => if structuralInvariants mode t then some t else none
  else none

/-! ## The Table Search Engine -/

/-- Modelled from the spec: the Storage Reader as the search consumes it.
`read_slot b s` is the candidate read from slot `s` of block `b` (`none` is a
read error), `is_bad_block` is the bad-block predicate and `lastSlot` is the `N`
of the documented sequence, the last slot of a journal block on this device. -/
structure StorageReader where
  lastSlot : Nat
  is_bad_block : Nat → Bool
  read_slot : Nat → Nat → Option NvBootConfigTable

/-- The result of a search together with the slots it read, in reading order. -/
structure SearchOutcome where
  table : Option NvBootConfigTable
  reads : List (Nat × Nat)
  deriving DecidableEq, Repr

/-- Modelled from the spec: one read attempt, a read followed by validation. -/
def readCandidate (cv : CryptoValidator) (mode : SecurityMode) (sr : StorageReader)
    (b s : Nat) : Option NvBootConfigTable :=
  match sr.read_slot b s with
  | none => none
  | some raw => validate cv mode raw

/-- Modelled from the spec: step 1 of the search.  Block 0 is examined at its
fixed slots in order and the first slot that yields a validated table wins. -/
def scanBlock0 (cv : CryptoValidator) (mode : SecurityMode) (sr : StorageReader) :
    List Nat → SearchOutcome
  | [] => ⟨none, []⟩
  | s :: rest =>
    match readCandidate cv mode sr 0 s with
    | some t => ⟨some t, [(0, s)]⟩
    | none =>
      let r := scanBlock0 cv mode sr rest
      ⟨r.table, (0, s) :: r.reads⟩

/-- Modelled from the spec: step 3 of the search, the scan of journal block `b`
over the given slots with `best` the best table recorded so far.  A read error or
a validation failure stops the scan and keeps `best`; a validated table becomes
the new `best` and the scan goes on. -/
def scanJournalBlock (cv : CryptoValidator) (mode : SecurityMode) (sr : StorageReader)
    (b : Nat) : List Nat → Option NvBootConfigTable → SearchOutcome
  | [], best => ⟨best, []⟩
  | s :: rest, best =>
    match readCandidate cv mode sr b s with
    | none => ⟨best, [(b, s)]⟩
    | some t =>
      let r := scanJournalBlock cv mode sr b rest (some t)
      ⟨r.table, (b, s) :: r.reads⟩

/-- Modelled from the spec: steps 2, 4 and 5 of the search over the given journal
blocks.  Blocks marked bad are skipped; the first scanned block that recorded a
best table ends the search with that table. -/
def searchJournal (cv : CryptoValidator) (mode : SecurityMode) (sr : StorageReader) :
    List Nat → SearchOutcome
  | [] => ⟨none, []⟩
  | b :: rest =>
    if sr.is_bad_block b then searchJournal cv mode sr rest
    else
      let r := scanJournalBlock cv mode sr b (journalSlots sr.lastSlot) none
      match r.table with
      | some t => ⟨some t, r.reads⟩
      | none =>
        let q := searchJournal cv mode sr rest
        ⟨q.table, r.reads ++ q.reads⟩

/-- Modelled from the spec: `find_authoritative_table() -> TableModel |
SearchFailed` (the search of `nvboot_bct.c`, not in the tree).  Block 0 first;
if it yields nothing, the journal blocks of the documented sequence.  A `table`
of `none` is `SearchFailed`. -/
def find_authoritative_table (cv : CryptoValidator) (mode : SecurityMode)
    (sr : StorageReader) : SearchOutcome :=
  let r0 := scanBlock0 cv mode sr block0Slots
  match r0.table with
  | some t => ⟨some t, r0.reads⟩
  | none =>
    let r := searchJournal cv mode sr journalBlocks
    ⟨r.table, r0.reads ++ r.reads⟩

/-! ## The Parameter Selector -/

/-- The error of parameter selection. -/
inductive SelectError where
  | OutOfRange
  deriving DecidableEq, Repr

/-- Modelled from the spec: the choice of one parameter set out of an array with
a declared count.  A count of zero is valid and selects nothing (the parameters
are not applied); otherwise the strap index must lie below the declared count,
whatever the capacity of the array. -/
def selectSet (count : Nat) (sets : List (List Nat)) (strap : Nat) :
    Except SelectError (Option (List Nat)) :=
  if count = 0 then Except.ok none
  else if strap < count then
    match sets[strap]? with
    | some p => Except.ok (some p)
    | none => Except.error SelectError.OutOfRange
  else Except.error SelectError.OutOfRange

/-- Modelled from the spec: `select(table, device_strap_index, sdram_strap_index)
-> (DeviceParams, SdramParams) | OutOfRange` (the selection is done by boot ROM
code that is not in the tree).  A component of `none` says that this kind of
parameters is not to be applied. -/
def select (table : NvBootConfigTable) (device_strap_index sdram_strap_index : Nat) :
    Except SelectError (Option (List Nat) × Option (List Nat)) :=
  match selectSet table.NumParamSets table.DevParams device_strap_index with
  | Except.error e => Except.error e
  | Except.ok dev =>
    match selectSet table.NumSdramSets table.SdramParams sdram_strap_index with
    | Except.error e => Except.error e
    | Except.ok sdram => Except.ok (dev, sdram)

/-! ## The Bootloader Load Engine -/

/-- Modelled from the spec: a bootloader image as read from the device, with the
length, load address, entry point and version recorded in its own header. -/
structure BlImage where
  Length : Nat
  LoadAddress : Nat
  EntryPoint : Nat
  Version : Nat
  deriving DecidableEq, Repr

/-- Modelled from the spec: the collaborators of bootloader loading.
`read_image copies d` is the image read from the location of descriptor `d`,
bad blocks skipped and read errors repaired from the redundant `copies` of the
same generation (`none` when no complete image can be assembled);
`verify_signature` is the verdict of the Crypto Validator on an image. -/
structure ImageReader where
  read_image : List NvBootLoaderInfo → NvBootLoaderInfo → Option BlImage
  verify_signature : BlImage → Bool

/-- Modelled from the spec: the acceptance test of step 2b.  The candidate must
fit within the partition, have a non-zero length, have its entry point within its
own bounds, pass the signature check and, when the version tag of the descriptor
is non-zero, carry that version in its header. -/
def acceptImage (ir : ImageReader) (table : NvBootConfigTable) (d : NvBootLoaderInfo)
    (img : BlImage) : Bool :=
  decide (d.StartBlock * 2 ^ table.BlockSizeLog2 + d.StartPage * 2 ^ table.PageSizeLog2
            + img.Length ≤ table.PartitionSize)
    && decide (img.Length ≠ 0)
    && decide (img.LoadAddress ≤ img.EntryPoint)
    && decide (img.EntryPoint < img.LoadAddress + img.Length)
    && ir.verify_signature img
    && (decide (d.Version = 0) || decide (img.Version = d.Version))

/-- Modelled from the spec: the attempt on one descriptor of a generation (steps
2a to 2c): read, with reconstruction from the generation, then accept or
reject. -/
def attemptDescriptor (ir : ImageReader) (table : NvBootConfigTable)
    (generation : List NvBootLoaderInfo) (d : NvBootLoaderInfo) : Option BlImage :=
  match ir.read_image generation d with
  | none => none
  | some img => if acceptImage ir table d img then some img else none

/-- Modelled from the spec: the partition of a descriptor list into generations,
the contiguous runs of descriptors with equal version tags, newest first. -/
def generations : List NvBootLoaderInfo → List (List NvBootLoaderInfo)
  | [] => []
  | d :: ds =>
    match generations ds with
    | (e :: g) :: gs =>
      if e.Version = d.Version then (d :: e :: g) :: gs else [d] :: (e :: g) :: gs
    | _ => [[d]]

/-- The first generation of a descriptor list, said directly: the maximal run of
entries from index 0 that share the version of entry 0. -/
def firstGeneration : List NvBootLoaderInfo → List NvBootLoaderInfo
  | [] => []
  | d :: ds => d :: ds.takeWhile (fun e => decide (e.Version = d.Version))

/-- Modelled from the spec: step 2 for one generation, the descriptors still to
be tried in index order; the first that yields a validated image is the result. -/
def loadGeneration (ir : ImageReader) (table : NvBootConfigTable)
    (generation : List NvBootLoaderInfo) : List NvBootLoaderInfo → Option BlImage
  | [] => none
  | d :: ds =>
    match attemptDescriptor ir table generation d with
    | some img => some img
    | none => loadGeneration ir table generation ds

/-- Modelled from the spec: steps 2 and 3 over the generations still to be tried.
When the current generation yields nothing, loading fails unless fail-back is
allowed, in which case the next-older generation is tried. -/
def loadGenerations (ir : ImageReader) (table : NvBootConfigTable)
    (allow_failback : Bool) : List (List NvBootLoaderInfo) → Option BlImage
  | [] => none
  | g :: gs =>
    match loadGeneration ir table g g with
    | some img => some img
    | none => if allow_failback then loadGenerations ir table allow_failback gs else none

/-- The descriptors in use: entries 0 through `BootLoadersUsed - 1` of the
`BootLoader` table (`nvboot_bct.h:433-438`). -/
def usedBootLoaders (table : NvBootConfigTable) : List NvBootLoaderInfo :=
  table.BootLoader.take table.BootLoadersUsed

/-- Modelled from the spec: `load_bootloader(table, allow_failback) ->
LaunchableImage | LoadFailed` (the loader is boot ROM code that is not in the
tree); `none` is `LoadFailed`. -/
def load_bootloader (ir : ImageReader) (table : NvBootConfigTable)
    (allow_failback : Bool) : Option BlImage :=
  loadGenerations ir table allow_failback (generations (usedBootLoaders table))

/-! ## Sample data for the evaluations below -/

/-- A table with every field zero or empty, and the padding pattern in place. -/
def blankBct : NvBootConfigTable where
  Pcp := []
  Signatures := []
  SecProvisioningKeyWrapKey := []
  SecProvisioningKeyNum_Insecure := 0
  Unsigned_Padding := []
  CustomerData := []
  RandomAesBlock := []
  BootConfig1 := []
  Signed_CustomerData1 := []
  RandomAesBlock2 := []
  UniqueChipId := []
  BootDataVersion := 0
  BlockSizeLog2 := 14
  PageSizeLog2 := 9
  PartitionSize := 4194304
  NumParamSets := 0
  DevType := []
  DevParams := [[]]
  NumSdramSets := 0
  SdramParams := [[0], [1], [2], [3]]
  BootLoadersUsed := 0
  BootLoader := []
  SecureDebugControl_Not_ECID_Checked := 0
  SecureDebugControl_ECID_Checked := 0
  BootConfig2 := []
  Signed_CustomerData2 := []
  SecProvisioningKeyNum_Secure := 0
  Reserved := paddingPattern

/-- A Crypto Validator that accepts every signature and decrypts to the identity. -/
def acceptingCrypto : CryptoValidator where
  verify_signature := fun _ => true
  decrypt := fun t => some t

/-- The mode without decryption, expecting data-structure version 0. -/
def plainMode : SecurityMode where
  requiresDecryption := false
  expectedBootDataVersion := 0

/-- A correctly signed table whose Reserved area is all zero, without the leading
`0x80`. -/
def zeroReservedBct : NvBootConfigTable :=
  { blankBct with Reserved := List.replicate NVBOOT_BCT_RESERVED_SIZE 0x00 }

/-- A table that declares two SDRAM parameter sets out of the four the array
holds. -/
def twoSdramSetsBct : NvBootConfigTable :=
  { blankBct with NumSdramSets := 2 }

/-- A table with four bootloader descriptors in two generations, versions 2, 2,
1, 1. -/
def twoGenerationsBct : NvBootConfigTable :=
  { blankBct with
    BootLoadersUsed := 4
    BootLoader := [⟨16, 0, 2, 0⟩, ⟨32, 0, 2, 0⟩, ⟨48, 0, 1, 0⟩, ⟨64, 0, 1, 0⟩] }

/-- An image reader under which every copy is readable, as a 4096-byte image
carrying the version of its descriptor, and only version-1 images pass the
signature check. -/
def onlyVersion1Signed : ImageReader where
  read_image := fun _ d => some ⟨4096, 0x40010000, 0x40010000, d.Version⟩
  verify_signature := fun img => decide (img.Version = 1)

/-- A valid table tagged, in its customer data, with the block and slot it is
stored in. -/
def slotBct (b s : Nat) : NvBootConfigTable :=
  { blankBct with CustomerData := [b, s] }

/-- A device after an interrupted update: block 0 is unreadable, journal block 1
holds valid tables in slots 0 to 2 and a table with a broken Reserved area in
slot 3, and nothing else can be read.  Journal blocks have slots 0 to 7. -/
def interruptedUpdateReader : StorageReader where
  lastSlot := 7
  is_bad_block := fun _ => false
  read_slot := fun b s =>
    if b = 1 then
      if s < 3 then some (slotBct 1 s)
      else if s = 3 then some { slotBct 1 3 with Reserved := [] }
      else none
    else none

/-- A device on which slots 0 and 1 of every block, journal blocks included, hold
valid tables. -/
def populatedReader : StorageReader where
  lastSlot := 7
  is_bad_block := fun _ => false
  read_slot := fun b s => if s ≤ 1 then some (slotBct b s) else none

/-! ## Theorems -/

/-! ### Shared lemmas -/

theorem NV_MIN_le_left (a b : Nat) : NV_MIN a b ≤ a := by
  unfold NV_MIN
  split <;> omega

theorem emem_window_eq (limit base : Nat) (hb : base ≤ limit) (hl : limit < 2 ^ 32) :
    (limit + 2 ^ 32 - base % 2 ^ 32) % 2 ^ 32 = limit - base := by
  have h1 : base % 2 ^ 32 = base := Nat.mod_eq_of_lt (by omega)
  rw [h1]
  omega

theorem sdram_total_size_le_window (w m : Nat) :
    (NV_MIN (w >>> 20) m <<< 20) % 2 ^ 32 ≤ w := by
  rw [Nat.shiftLeft_eq, Nat.shiftRight_eq_div_pow]
  have h1 : NV_MIN (w / 2 ^ 20) m ≤ w / 2 ^ 20 := NV_MIN_le_left _ _
  have h2 : w / 2 ^ 20 * 2 ^ 20 ≤ w := Nat.div_mul_le_self w (2 ^ 20)
  have h3 : NV_MIN (w / 2 ^ 20) m * 2 ^ 20 ≤ w / 2 ^ 20 * 2 ^ 20 :=
    Nat.mul_le_mul_right _ h1
  have h4 : NV_MIN (w / 2 ^ 20) m * 2 ^ 20 % 2 ^ 32 ≤ NV_MIN (w / 2 ^ 20) m * 2 ^ 20 :=
    Nat.mod_le _ _
  omega

/-! ### C6 -/

/-- C6: the byte count returned by `NvBootBRSdramQueryTotalSize` is capped at the
low EMEM window.  For every 32-bit pair of address-map values with
`NV_ADDRESS_MAP_EMEM_LO_BASE ≤ NV_ADDRESS_MAP_EMEM_LO_LIMIT` and every value `m`
returned by `NvBootSdramQueryTotalMB(NV_TRUE)`, the result is at most
`LIMIT - BASE`, hence at most `2^31` bytes whenever that window is at most 2 GB. -/
theorem NvBootBRSdramQueryTotalSize_capped (limit base m : Nat)
    (hb : base ≤ limit) (hl : limit < 2 ^ 32) :
    NvBootBRSdramQueryTotalSize limit base m ≤ limit - base
      ∧ (limit - base ≤ 2 ^ 31 → NvBootBRSdramQueryTotalSize limit base m ≤ 2 ^ 31) := by
  have hw : NvBootBRSdramQueryTotalSize limit base m ≤ limit - base := by
    unfold NvBootBRSdramQueryTotalSize
    simp only []
    rw [emem_window_eq limit base hb hl]
    exact sdram_total_size_le_window (limit - base) m
  exact ⟨hw, fun h => Nat.le_trans hw h⟩

/-- Witness of C6 on the T210-family map, base `0x80000000` and limit
`0xFFFFFFFF`, with 4096 MB of SDRAM fitted. -/
theorem NvBootBRSdramQueryTotalSize_capped_witness :
    (0x80000000 ≤ 0xFFFFFFFF ∧ 0xFFFFFFFF < 2 ^ 32)
      ∧ NvBootBRSdramQueryTotalSize 0xFFFFFFFF 0x80000000 4096 ≤ 0xFFFFFFFF - 0x80000000
      ∧ (0xFFFFFFFF - 0x80000000 ≤ 2 ^ 31
          → NvBootBRSdramQueryTotalSize 0xFFFFFFFF 0x80000000 4096 ≤ 2 ^ 31) :=
  ⟨by decide,
    NvBootBRSdramQueryTotalSize_capped 0xFFFFFFFF 0x80000000 4096 (by decide) (by decide)⟩

/-! ### C7 -/

/-- C7: `MIN_BCT_BUFFER_SIZE` rounds the size `s` of the BCT up to whole pages of
`P = NVBOOT_MAX_SECONDARY_BOOT_DEVICE_PAGE_SIZE` bytes: the result is a multiple
of `P`, satisfies `s ≤ result < s + P`, and is the least multiple of `P` that is
at least `s`; a 3 KB BCT gets a 4 KB buffer.  (Holds for every `s`, in
particular for every `s ≥ 1`.) -/
theorem MIN_BCT_BUFFER_SIZE_least_multiple (s : Nat) :
    NVBOOT_MAX_SECONDARY_BOOT_DEVICE_PAGE_SIZE = 2048
      ∧ NVBOOT_MAX_SECONDARY_BOOT_DEVICE_PAGE_SIZE ∣ MIN_BCT_BUFFER_SIZE s
      ∧ s ≤ MIN_BCT_BUFFER_SIZE s
      ∧ MIN_BCT_BUFFER_SIZE s < s + NVBOOT_MAX_SECONDARY_BOOT_DEVICE_PAGE_SIZE
      ∧ (∀ k, NVBOOT_MAX_SECONDARY_BOOT_DEVICE_PAGE_SIZE ∣ k → s ≤ k →
          MIN_BCT_BUFFER_SIZE s ≤ k)
      ∧ MIN_BCT_BUFFER_SIZE (3 * 1024) = 4 * 1024 := by
  refine ⟨rfl, ⟨_, Nat.mul_comm _ _⟩, ?_, ?_, ?_, by decide⟩
  · unfold MIN_BCT_BUFFER_SIZE NVBOOT_MAX_SECONDARY_BOOT_DEVICE_PAGE_SIZE
    omega
  · unfold MIN_BCT_BUFFER_SIZE NVBOOT_MAX_SECONDARY_BOOT_DEVICE_PAGE_SIZE
    omega
  · rintro k ⟨c, rfl⟩ hk
    unfold MIN_BCT_BUFFER_SIZE NVBOOT_MAX_SECONDARY_BOOT_DEVICE_PAGE_SIZE at *
    omega

/-! ### C8 -/

/-- C8: the block and page size bounds are well-formed and match their documented
byte values: min ≤ max for both log2 ranges, `2^8 = 256` bytes, `2^23 = 8 MiB =
8388608` bytes, `2^14 = 16384` bytes, `NVBOOT_MIN_PAGE_SIZE = 256` and
`NVBOOT_MAX_PAGE_SIZE = 16384`. -/
theorem size_bounds_well_formed :
    NVBOOT_MIN_BLOCK_SIZE_LOG2 ≤ NVBOOT_MAX_BLOCK_SIZE_LOG2
      ∧ NVBOOT_MIN_PAGE_SIZE_LOG2 ≤ NVBOOT_MAX_PAGE_SIZE_LOG2
      ∧ NVBOOT_MIN_BLOCK_SIZE_LOG2 = 8 ∧ 2 ^ NVBOOT_MIN_BLOCK_SIZE_LOG2 = 256
      ∧ NVBOOT_MAX_BLOCK_SIZE_LOG2 = 23
      ∧ 2 ^ NVBOOT_MAX_BLOCK_SIZE_LOG2 = 8388608 ∧ 8388608 = 8 * 2 ^ 20
      ∧ NVBOOT_MIN_PAGE_SIZE_LOG2 = 8 ∧ 2 ^ NVBOOT_MIN_PAGE_SIZE_LOG2 = 256
      ∧ NVBOOT_MAX_PAGE_SIZE_LOG2 = 14 ∧ 2 ^ NVBOOT_MAX_PAGE_SIZE_LOG2 = 16384
      ∧ NVBOOT_MIN_PAGE_SIZE = 256 ∧ NVBOOT_MAX_PAGE_SIZE = 16384 := by
  decide

/-! ### C10 -/

/-- C10, evaluated at the failing input: the page-size log `p = 14` is permitted
by the log2 bounds, yet its page size `2^14 = NVBOOT_MAX_PAGE_SIZE = 16384`
exceeds `NVBOOT_MAX_SECONDARY_BOOT_DEVICE_PAGE_SIZE = 2048`, and the buffer sized
for a 3 KB BCT (4096 bytes) does not hold one page of that size. -/
theorem max_secondary_page_size_below_max_page_size :
    NVBOOT_MIN_PAGE_SIZE_LOG2 ≤ 14 ∧ 14 ≤ NVBOOT_MAX_PAGE_SIZE_LOG2
      ∧ NVBOOT_MAX_PAGE_SIZE = 2 ^ 14
      ∧ ¬ (2 ^ 14 ≤ NVBOOT_MAX_SECONDARY_BOOT_DEVICE_PAGE_SIZE)
      ∧ MIN_BCT_BUFFER_SIZE (3 * 1024) < 2 ^ 14 := by
  decide

/-! ### C9 -/

/-- C9: the maximum search block count covers the initial block and the journal
blocks.  With `NVBOOT_MAX_BCT_SEARCH_BLOCKS = 64` the block indices of the
documented search sequence are exactly `0..63`: a block occurs in the sequence
iff its index is below `NVBOOT_MAX_BCT_SEARCH_BLOCKS`, the last journal block is
`NVBOOT_MAX_BCT_SEARCH_BLOCKS - 1 = 63`, and the journal blocks are the 63 blocks
`1..63`. -/
theorem search_sequence_blocks (N : Nat) :
    NVBOOT_MAX_BCT_SEARCH_BLOCKS = 64
      ∧ (∀ b, (∃ s, (b, s) ∈ searchSequence N) ↔ b < NVBOOT_MAX_BCT_SEARCH_BLOCKS)
      ∧ journalBlocks.getLast? = some (NVBOOT_MAX_BCT_SEARCH_BLOCKS - 1)
      ∧ NVBOOT_MAX_BCT_SEARCH_BLOCKS - 1 = 63
      ∧ journalBlocks.length = 63
      ∧ (∀ b, b ∈ journalBlocks ↔ 1 ≤ b ∧ b ≤ 63) := by
  refine ⟨rfl, ?_, by decide, by decide, by decide, ?_⟩
  · intro b
    simp only [searchSequence, block0Slots, journalBlocks, journalSlots,
      NVBOOT_MAX_BCT_SEARCH_BLOCKS, List.mem_append, List.mem_map, List.mem_flatMap,
      List.mem_range, List.mem_cons, List.mem_singleton, Prod.mk.injEq, List.not_mem_nil,
      or_false]
    constructor
    · rintro ⟨s, h | ⟨c, ⟨a, ha, rfl⟩, x, _, rfl, _⟩⟩
      · rcases h with ⟨x, _, rfl, _⟩
        omega
      · omega
    · intro hb
      by_cases h0 : b = 0
      · exact ⟨0, Or.inl ⟨0, Or.inl rfl, h0.symm, rfl⟩⟩
      · exact ⟨0, Or.inr ⟨b, ⟨b - 1, by omega, by omega⟩, 0, by omega, rfl, rfl⟩⟩
  · intro b
    simp only [journalBlocks, List.mem_map, List.mem_range]
    constructor
    · rintro ⟨a, ha, rfl⟩
      omega
    · rintro ⟨h1, h2⟩
      exact ⟨b - 1, by omega, by omega⟩

/-! ### C3 -/

/-- C3: a candidate BCT whose Reserved region is not exactly one byte `0x80`
followed by 387 bytes of `0x00` is rejected by validation, whatever the verdict
of its signature check.  `t` is the candidate as the structural checks see it:
the candidate itself, or its decryption when the mode requires one. -/
theorem validate_rejects_bad_reserved (cv : CryptoValidator) (mode : SecurityMode)
    (raw t : NvBootConfigTable)
    (hd : decryptStage cv mode raw = some t)
    (hr : t.Reserved ≠ 0x80 :: List.replicate 387 0x00) :
    validate cv mode raw = none
      ∧ NVBOOT_BCT_RESERVED_SIZE = 388
      ∧ (0x80 :: List.replicate 387 0x00 : List Nat).length = NVBOOT_BCT_RESERVED_SIZE := by
  refine ⟨?_, rfl, by rw [List.length_cons, List.length_replicate]; rfl⟩
  have hp : t.Reserved ≠ paddingPattern := hr
  unfold validate
  rw [hd]
  have hs : structuralInvariants mode t = false := by
    unfold structuralInvariants
    simp [hp]
  simp [hs]

set_option maxRecDepth 20000 in
/-- Witness of C3: a table that passes the signature check and every other
structural check, but whose Reserved area lacks the leading `0x80`, is rejected;
the same table with the padding pattern in place is accepted. -/
theorem validate_rejects_bad_reserved_witness :
    acceptingCrypto.verify_signature zeroReservedBct = true
      ∧ validate acceptingCrypto plainMode zeroReservedBct = none
      ∧ validate acceptingCrypto plainMode blankBct = some blankBct :=
  ⟨rfl,
    (validate_rejects_bad_reserved acceptingCrypto plainMode zeroReservedBct
      zeroReservedBct rfl (by decide)).1,
    by decide⟩

/-! ### C4 -/

theorem generations_cons (d : NvBootLoaderInfo) (ds : List NvBootLoaderInfo) :
    ∃ gs, generations (d :: ds) = firstGeneration (d :: ds) :: gs := by
  induction ds generalizing d with
  | nil => exact ⟨[], rfl⟩
  | cons e es ih =>
    obtain ⟨gs, hgs⟩ := ih e
    unfold generations
    rw [hgs]
    by_cases hv : e.Version = d.Version
    · refine ⟨gs, ?_⟩
      simp [firstGeneration, hv]
    · refine ⟨firstGeneration (e :: es) :: gs, ?_⟩
      simp [firstGeneration, hv]

theorem loadGeneration_none (ir : ImageReader) (table : NvBootConfigTable)
    (g l : List NvBootLoaderInfo)
    (h : ∀ d ∈ l, attemptDescriptor ir table g d = none) :
    loadGeneration ir table g l = none := by
  induction l with
  | nil => rfl
  | cons d ds ih =>
    unfold loadGeneration
    rw [h d (List.mem_cons_self _ _)]
    exact ih (fun x hx => h x (List.mem_cons_of_mem _ hx))

/-- C4: with fail-back disabled, bootloader loading only considers the first
generation, the maximal run of `BootLoader` entries from index 0 that share one
`Version`: if every descriptor of the first generation fails, loading fails,
whatever the descriptors of older generations would yield. -/
theorem load_bootloader_first_generation_only (ir : ImageReader)
    (table : NvBootConfigTable)
    (h : ∀ d ∈ firstGeneration (usedBootLoaders table),
      attemptDescriptor ir table (firstGeneration (usedBootLoaders table)) d = none) :
    load_bootloader ir table false = none := by
  unfold load_bootloader
  cases hl : usedBootLoaders table with
  | nil => rfl
  | cons d ds =>
    rw [hl] at h
    obtain ⟨gs, hgs⟩ := generations_cons d ds
    rw [hgs]
    unfold loadGenerations
    rw [loadGeneration_none ir table _ _ h]
    rfl

/-- Witness of C4: versions 2, 2, 1, 1 with both version-2 entries failing their
signature check and both version-1 entries valid.  Without fail-back loading
fails; the version-1 image is there, as loading with fail-back shows. -/
theorem load_bootloader_first_generation_only_witness :
    (usedBootLoaders twoGenerationsBct).map (fun d => d.Version) = [2, 2, 1, 1]
      ∧ load_bootloader onlyVersion1Signed twoGenerationsBct false = none
      ∧ load_bootloader onlyVersion1Signed twoGenerationsBct true
          = some ⟨4096, 0x40010000, 0x40010000, 1⟩ :=
  ⟨by decide,
    load_bootloader_first_generation_only onlyVersion1Signed twoGenerationsBct (by decide),
    by decide⟩

/-! ### C5 -/

/-- C5 as stated fails when the declared count is zero: the blank table declares
`NumSdramSets = 0`, strap index 0 satisfies `0 ≥ NumSdramSets` and
`NumSdramSets < NVBOOT_BCT_MAX_SDRAM_SETS`, and selection does not yield
`OutOfRange` but the valid result that selects no SDRAM set. -/
theorem select_zero_count_is_not_out_of_range :
    blankBct.NumSdramSets ≤ 0
      ∧ blankBct.NumSdramSets < NVBOOT_BCT_MAX_SDRAM_SETS
      ∧ select blankBct 0 0 = Except.ok (none, none)
      ∧ select blankBct 0 0 ≠ Except.error SelectError.OutOfRange := by
  refine ⟨by decide, by decide, rfl, ?_⟩
  rw [show select blankBct 0 0 = Except.ok (none, none) from rfl]
  simp

/-- C5, amended: parameter selection is bounded by the declared count, not the
array capacity.  For every table that declares at least one SDRAM set and every
SDRAM strap index `i ≥ NumSdramSets`, selection yields `OutOfRange`, whatever the
device strap index and whatever `SdramParams` holds at `i`. -/
theorem select_out_of_range (table : NvBootConfigTable) (d i : Nat)
    (h0 : table.NumSdramSets ≠ 0) (hi : table.NumSdramSets ≤ i) :
    select table d i = Except.error SelectError.OutOfRange := by
  have hs : selectSet table.NumSdramSets table.SdramParams i
      = Except.error SelectError.OutOfRange := by
    unfold selectSet
    rw [if_neg h0, if_neg (by omega)]
  unfold select
  rw [hs]
  cases selectSet table.NumParamSets table.DevParams d with
  | error e => cases e; rfl
  | ok dev => rfl

/-- Witness of C5, amended: a table declaring two SDRAM sets and strap index 2,
one past the last valid entry and below the capacity 4; entry 2 of the array is
there, and selection yields `OutOfRange`. -/
theorem select_out_of_range_witness :
    twoSdramSetsBct.NumSdramSets = 2
      ∧ 2 < NVBOOT_BCT_MAX_SDRAM_SETS
      ∧ twoSdramSetsBct.SdramParams[2]? = some [2]
      ∧ select twoSdramSetsBct 0 2 = Except.error SelectError.OutOfRange :=
  ⟨rfl, by decide, rfl, select_out_of_range twoSdramSetsBct 0 2 (by decide) (by decide)⟩

/-! ### Lemmas on the search -/

theorem searchJournal_cons_bad (cv : CryptoValidator) (mode : SecurityMode)
    (sr : StorageReader) (b : Nat) (rest : List Nat) (hbad : sr.is_bad_block b = true) :
    searchJournal cv mode sr (b :: rest) = searchJournal cv mode sr rest := by
  rw [searchJournal, if_pos hbad]

theorem searchJournal_cons_some (cv : CryptoValidator) (mode : SecurityMode)
    (sr : StorageReader) (b : Nat) (rest : List Nat) (t : NvBootConfigTable)
    (hbad : ¬ sr.is_bad_block b = true)
    (h : (scanJournalBlock cv mode sr b (journalSlots sr.lastSlot) none).table = some t) :
    searchJournal cv mode sr (b :: rest)
      = ⟨some t, (scanJournalBlock cv mode sr b (journalSlots sr.lastSlot) none).reads⟩ := by
  rw [searchJournal, if_neg hbad]
  simp only [h]

theorem searchJournal_cons_none (cv : CryptoValidator) (mode : SecurityMode)
    (sr : StorageReader) (b : Nat) (rest : List Nat)
    (hbad : ¬ sr.is_bad_block b = true)
    (h : (scanJournalBlock cv mode sr b (journalSlots sr.lastSlot) none).table = none) :
    searchJournal cv mode sr (b :: rest)
      = ⟨(searchJournal cv mode sr rest).table,
          (scanJournalBlock cv mode sr b (journalSlots sr.lastSlot) none).reads
            ++ (searchJournal cv mode sr rest).reads⟩ := by
  rw [searchJournal, if_neg hbad]
  simp only [h]

theorem find_authoritative_table_some (cv : CryptoValidator) (mode : SecurityMode)
    (sr : StorageReader) (t : NvBootConfigTable)
    (h : (scanBlock0 cv mode sr block0Slots).table = some t) :
    find_authoritative_table cv mode sr
      = ⟨some t, (scanBlock0 cv mode sr block0Slots).reads⟩ := by
  rw [find_authoritative_table]
  simp only [h]

theorem find_authoritative_table_none (cv : CryptoValidator) (mode : SecurityMode)
    (sr : StorageReader)
    (h : (scanBlock0 cv mode sr block0Slots).table = none) :
    find_authoritative_table cv mode sr
      = ⟨(searchJournal cv mode sr journalBlocks).table,
          (scanBlock0 cv mode sr block0Slots).reads
            ++ (searchJournal cv mode sr journalBlocks).reads⟩ := by
  rw [find_authoritative_table]
  simp only [h]

theorem scanBlock0_reads_sublist (cv : CryptoValidator) (mode : SecurityMode)
    (sr : StorageReader) (slots : List Nat) :
    (scanBlock0 cv mode sr slots).reads.Sublist (slots.map (fun s => (0, s))) := by
  induction slots with
  | nil => exact List.Sublist.refl _
  | cons s rest ih =>
    unfold scanBlock0
    cases h : readCandidate cv mode sr 0 s with
    | none => exact List.Sublist.cons₂ _ ih
    | some t =>
      exact List.Sublist.cons₂ _ (List.nil_sublist _)

theorem scanJournalBlock_reads_sublist (cv : CryptoValidator) (mode : SecurityMode)
    (sr : StorageReader) (b : Nat) (slots : List Nat) (best : Option NvBootConfigTable) :
    (scanJournalBlock cv mode sr b slots best).reads.Sublist
      (slots.map (fun s => (b, s))) := by
  induction slots generalizing best with
  | nil => exact List.Sublist.refl _
  | cons s rest ih =>
    unfold scanJournalBlock
    cases h : readCandidate cv mode sr b s with
    | none => exact List.Sublist.cons₂ _ (List.nil_sublist _)
    | some t => exact List.Sublist.cons₂ _ (ih (some t))

theorem searchJournal_reads_sublist (cv : CryptoValidator) (mode : SecurityMode)
    (sr : StorageReader) (blocks : List Nat) :
    (searchJournal cv mode sr blocks).reads.Sublist
      (blocks.flatMap (fun b => (journalSlots sr.lastSlot).map (fun s => (b, s)))) := by
  induction blocks with
  | nil => exact List.Sublist.refl _
  | cons b rest ih =>
    rw [List.flatMap_cons]
    by_cases hbad : sr.is_bad_block b = true
    · rw [searchJournal_cons_bad cv mode sr b rest hbad]
      exact ih.trans (List.sublist_append_right _ _)
    · have hs := scanJournalBlock_reads_sublist cv mode sr b (journalSlots sr.lastSlot) none
      cases h : (scanJournalBlock cv mode sr b (journalSlots sr.lastSlot) none).table with
      | none =>
        rw [searchJournal_cons_none cv mode sr b rest hbad h]
        exact List.Sublist.append hs ih
      | some t =>
        rw [searchJournal_cons_some cv mode sr b rest t hbad h]
        exact hs.trans (List.sublist_append_left _ _)

theorem find_authoritative_table_reads_sublist (cv : CryptoValidator)
    (mode : SecurityMode) (sr : StorageReader) :
    (find_authoritative_table cv mode sr).reads.Sublist (searchSequence sr.lastSlot) := by
  unfold searchSequence
  have h0 := scanBlock0_reads_sublist cv mode sr block0Slots
  cases h : (scanBlock0 cv mode sr block0Slots).table with
  | none =>
    rw [find_authoritative_table_none cv mode sr h]
    exact List.Sublist.append h0 (searchJournal_reads_sublist cv mode sr journalBlocks)
  | some t =>
    rw [find_authoritative_table_some cv mode sr t h]
    exact h0.trans (List.sublist_append_left _ _)

theorem scanBlock0_reads_block (cv : CryptoValidator) (mode : SecurityMode)
    (sr : StorageReader) (slots : List Nat) (p : Nat × Nat)
    (hp : p ∈ (scanBlock0 cv mode sr slots).reads) : p.1 = 0 := by
  have h := (scanBlock0_reads_sublist cv mode sr slots).subset hp
  rw [List.mem_map] at h
  obtain ⟨s, _, rfl⟩ := h
  rfl

theorem scanJournalBlock_reads_block (cv : CryptoValidator) (mode : SecurityMode)
    (sr : StorageReader) (b : Nat) (slots : List Nat) (best : Option NvBootConfigTable)
    (p : Nat × Nat) (hp : p ∈ (scanJournalBlock cv mode sr b slots best).reads) :
    p.1 = b := by
  have h := (scanJournalBlock_reads_sublist cv mode sr b slots best).subset hp
  rw [List.mem_map] at h
  obtain ⟨s, _, rfl⟩ := h
  rfl

theorem scanJournalBlock_table_of_fail (cv : CryptoValidator) (mode : SecurityMode)
    (sr : StorageReader) (b : Nat) (pre : List Nat) (s : Nat) (post : List Nat)
    (best : Option NvBootConfigTable)
    (hgood : ∀ x ∈ pre, (readCandidate cv mode sr b x).isSome = true)
    (hfail : readCandidate cv mode sr b s = none) :
    (scanJournalBlock cv mode sr b (pre ++ s :: post) best).table
      = match pre.getLast? with
        | none => best
        | some x => readCandidate cv mode sr b x := by
  induction pre generalizing best with
  | nil =>
    simp only [List.nil_append, List.getLast?_nil]
    unfold scanJournalBlock
    rw [hfail]
  | cons x pre ih =>
    have hx := hgood x (List.mem_cons_self _ _)
    obtain ⟨t, ht⟩ := Option.isSome_iff_exists.mp hx
    rw [List.cons_append]
    unfold scanJournalBlock
    rw [ht]
    simp only []
    rw [ih (some t) (fun y hy => hgood y (List.mem_cons_of_mem _ hy))]
    cases pre with
    | nil => simp [ht]
    | cons y ys =>
      rw [List.getLast?_cons_cons]
      cases hl : (y :: ys).getLast? with
      | none => simp at hl
      | some z => rfl

theorem journalSlots_split (N k : Nat) (hk : k ≤ N) :
    ∃ post, journalSlots N = List.range k ++ k :: post := by
  unfold journalSlots
  refine ⟨(List.range (N - k)).map (fun j => k + 1 + j), ?_⟩
  have h : N + 1 = k + (N - k + 1) := by omega
  rw [h, List.range_add, List.range_succ_eq_map]
  simp [Function.comp_def]
  intro a _
  omega

theorem searchJournal_table_of_scanned (cv : CryptoValidator) (mode : SecurityMode)
    (sr : StorageReader) (blocks : List Nat) (b s : Nat) (t : NvBootConfigTable)
    (hmem : (b, s) ∈ (searchJournal cv mode sr blocks).reads)
    (ht : (scanJournalBlock cv mode sr b (journalSlots sr.lastSlot) none).table = some t) :
    (searchJournal cv mode sr blocks).table = some t := by
  induction blocks with
  | nil =>
    unfold searchJournal at hmem
    simp at hmem
  | cons c rest ih =>
    by_cases hbad : sr.is_bad_block c = true
    · rw [searchJournal_cons_bad cv mode sr c rest hbad] at hmem ⊢
      exact ih hmem
    · cases h : (scanJournalBlock cv mode sr c (journalSlots sr.lastSlot) none).table with
      | none =>
        rw [searchJournal_cons_none cv mode sr c rest hbad h] at hmem ⊢
        simp only [List.mem_append] at hmem
        rcases hmem with hm | hm
        · have hbc : b = c := scanJournalBlock_reads_block cv mode sr c _ none _ hm
          subst hbc
          rw [h] at ht
          cases ht
        · exact ih hm
      | some u =>
        rw [searchJournal_cons_some cv mode sr c rest u hbad h] at hmem ⊢
        have hbc : b = c := scanJournalBlock_reads_block cv mode sr c _ none _ hmem
        subst hbc
        rw [h] at ht
        simp only []
        exact ht

theorem range_getLast (k : Nat) (hk : 1 ≤ k) : (List.range k).getLast? = some (k - 1) := by
  obtain ⟨j, rfl⟩ : ∃ j, k = j + 1 := ⟨k - 1, by omega⟩
  rw [List.range_succ, List.getLast?_concat]
  rfl

/-! ### C1 -/

/-- C1: the journal-block rule, last good before failure.  Whenever the search
scans a journal block `b` (it reads slot 0 of `b`) in which slots `0..k-1` each
read and validate and slot `k`, with `k ≥ 1` a slot of the block, fails to read
or fails validation (`readCandidate` is `none` in both cases), the search returns
the table from slot `k-1` of that block. -/
theorem journal_block_last_good_before_failure (cv : CryptoValidator)
    (mode : SecurityMode) (sr : StorageReader) (b k : Nat)
    (hb : 1 ≤ b)
    (hscan : (b, 0) ∈ (find_authoritative_table cv mode sr).reads)
    (hk : 1 ≤ k) (hkN : k ≤ sr.lastSlot)
    (hgood : ∀ j, j < k → (readCandidate cv mode sr b j).isSome = true)
    (hfail : readCandidate cv mode sr b k = none) :
    (find_authoritative_table cv mode sr).table = readCandidate cv mode sr b (k - 1)
      ∧ (find_authoritative_table cv mode sr).table.isSome = true := by
  obtain ⟨post, hsplit⟩ := journalSlots_split sr.lastSlot k hkN
  have hlast : (readCandidate cv mode sr b (k - 1)).isSome = true :=
    hgood (k - 1) (by omega)
  obtain ⟨t, ht⟩ := Option.isSome_iff_exists.mp hlast
  have hblock : (scanJournalBlock cv mode sr b (journalSlots sr.lastSlot) none).table
      = some t := by
    rw [hsplit, scanJournalBlock_table_of_fail cv mode sr b (List.range k) k post none
      (fun x hx => hgood x (List.mem_range.mp hx)) hfail, range_getLast k hk]
    exact ht
  have hres : (find_authoritative_table cv mode sr).table = some t := by
    cases h0 : (scanBlock0 cv mode sr block0Slots).table with
    | some u =>
      rw [find_authoritative_table_some cv mode sr u h0] at hscan
      have hb0 : b = 0 := scanBlock0_reads_block cv mode sr _ _ hscan
      omega
    | none =>
      rw [find_authoritative_table_none cv mode sr h0] at hscan ⊢
      simp only [List.mem_append] at hscan
      rcases hscan with hm | hm
      · have hb0 : b = 0 := scanBlock0_reads_block cv mode sr _ _ hm
        omega
      · exact searchJournal_table_of_scanned cv mode sr journalBlocks b 0 t hm hblock
  rw [hres, ht]
  exact ⟨rfl, rfl⟩

set_option maxRecDepth 20000 in
/-- Witness of C1: block 0 unusable, journal block 1 with valid slots 0 to 2 and
an invalid slot 3; the search returns the table from slot 2. -/
theorem journal_block_last_good_before_failure_witness :
    (find_authoritative_table acceptingCrypto plainMode interruptedUpdateReader).table
      = some (slotBct 1 2) :=
  (journal_block_last_good_before_failure acceptingCrypto plainMode interruptedUpdateReader
    1 3 (by decide) (by decide) (by decide) (by decide) (by decide) (by decide)).1.trans
    (by decide)

/-! ### C2 -/

/-- C2: the Block 0 rule, first success wins.  Whenever slot 0 of block 0 holds a
table that passes validation, the search returns exactly that table and the only
slot it reads is slot 0 of block 0, so no slot of any journal block (blocks 1 and
above).  The search order is block 0 slot 0, block 0 slot 1, then journal blocks:
on every device the slots read, in order, form a sublist of the documented
sequence, which starts with these two slots and continues in blocks 1 and
above. -/
theorem block0_slot0_first_success_wins (cv : CryptoValidator) (mode : SecurityMode)
    (sr : StorageReader) (raw t : NvBootConfigTable)
    (hr : sr.read_slot 0 0 = some raw) (hv : validate cv mode raw = some t) :
    (find_authoritative_table cv mode sr).table = some t
      ∧ (find_authoritative_table cv mode sr).reads = [(0, 0)]
      ∧ (∀ p ∈ (find_authoritative_table cv mode sr).reads, ¬ 1 ≤ p.1)
      ∧ (∀ dev : StorageReader,
          (find_authoritative_table cv mode dev).reads.Sublist (searchSequence dev.lastSlot))
      ∧ (∀ N, ∃ rest, searchSequence N = (0, 0) :: (0, 1) :: rest
          ∧ ∀ p ∈ rest, 1 ≤ p.1) := by
  have hc : readCandidate cv mode sr 0 0 = some t := by
    unfold readCandidate
    rw [hr]
    exact hv
  have h0 : scanBlock0 cv mode sr block0Slots = ⟨some t, [(0, 0)]⟩ := by
    unfold block0Slots
    rw [scanBlock0, hc]
  have hf : find_authoritative_table cv mode sr = ⟨some t, [(0, 0)]⟩ := by
    rw [find_authoritative_table_some cv mode sr t (by rw [h0]), h0]
  refine ⟨by rw [hf], by rw [hf], ?_, ?_, ?_⟩
  · intro p hp
    rw [hf] at hp
    simp only [List.mem_singleton] at hp
    subst hp
    decide
  · intro dev
    exact find_authoritative_table_reads_sublist cv mode dev
  · intro N
    refine ⟨journalBlocks.flatMap (fun b => (journalSlots N).map (fun s => (b, s))), rfl, ?_⟩
    intro p hp
    simp only [journalBlocks, List.mem_flatMap, List.mem_map, List.mem_range] at hp
    obtain ⟨c, ⟨a, _, rfl⟩, s, _, rfl⟩ := hp
    simp

set_option maxRecDepth 20000 in
/-- Witness of C2: every block holds valid tables in slots 0 and 1; the search
returns the table of block 0 slot 0 and reads nothing else. -/
theorem block0_slot0_first_success_wins_witness :
    populatedReader.read_slot 1 0 = some (slotBct 1 0)
      ∧ (find_authoritative_table acceptingCrypto plainMode populatedReader).table
          = some (slotBct 0 0)
      ∧ (find_authoritative_table acceptingCrypto plainMode populatedReader).reads
          = [(0, 0)] :=
  have h := block0_slot0_first_success_wins acceptingCrypto plainMode populatedReader
    (slotBct 0 0) (slotBct 0 0) (by decide) (by decide)
  ⟨by decide, h.1, h.2.1⟩

/-! ### C11 -/

/-- C11, evaluated on the constants of the header: `NVBOOT_BCT_REQUIRED_SIZE` is
10240, while `NVBOOT_BCT_REQUIRED_NUM_PAGES * NVBOOT_BCT_REQUIRED_PAGE_SIZE` is
8192; the required size is neither that product, nor the product less the 16
bytes the documentation mentions, nor any whole number of pages of
`NVBOOT_BCT_REQUIRED_PAGE_SIZE` bytes. -/
theorem required_size_is_not_the_page_product :
    NVBOOT_BCT_REQUIRED_SIZE = 10240
      ∧ NVBOOT_BCT_REQUIRED_NUM_PAGES * NVBOOT_BCT_REQUIRED_PAGE_SIZE = 8192
      ∧ NVBOOT_BCT_REQUIRED_SIZE
          ≠ NVBOOT_BCT_REQUIRED_NUM_PAGES * NVBOOT_BCT_REQUIRED_PAGE_SIZE
      ∧ NVBOOT_BCT_REQUIRED_SIZE
          ≠ NVBOOT_BCT_REQUIRED_NUM_PAGES * NVBOOT_BCT_REQUIRED_PAGE_SIZE - 16
      ∧ ¬ NVBOOT_BCT_REQUIRED_PAGE_SIZE ∣ NVBOOT_BCT_REQUIRED_SIZE := by
  decide

/-! ### C12 -/

/-- C12: the unsigned section of the BCT is a multiple of the AES block size.
The unsigned members whose size the header fixes total 256 bytes, a multiple of
the 16 bytes of an AES block, so whenever the sizes of `Pcp` and `Signatures` are
multiples of 16 the offset of `RandomAesBlock`, the start of the signed section,
is a multiple of 16. -/
theorem unsigned_section_aes_block_multiple (sizeofPcp sizeofSignatures : Nat)
    (hp : 16 ∣ sizeofPcp) (hs : 16 ∣ sizeofSignatures) :
    NVBOOT_AES_BLOCK_LENGTH_BYTES = 16
      ∧ sizeof_fixedUnsignedMembers = 8 * 4 + 1 * 4 + 3 * 4 + NVBOOT_BCT_CUSTOMER_DATA_SIZE
      ∧ sizeof_fixedUnsignedMembers = 256
      ∧ NVBOOT_AES_BLOCK_LENGTH_BYTES ∣ sizeof_fixedUnsignedMembers
      ∧ NVBOOT_AES_BLOCK_LENGTH_BYTES ∣ offsetof_RandomAesBlock sizeofPcp sizeofSignatures := by
  have hf : (16 : Nat) ∣ sizeof_fixedUnsignedMembers := by decide
  refine ⟨rfl, rfl, rfl, hf, ?_⟩
  unfold offsetof_RandomAesBlock
  exact Nat.dvd_add (Nat.dvd_add hp hs) hf

/-- Witness of C12: with 544 bytes of `Pcp` and 560 bytes of `Signatures` the
signed section starts at offset 1360, which is 85 AES blocks. -/
theorem unsigned_section_aes_block_multiple_witness :
    offsetof_RandomAesBlock 544 560 = 85 * 16
      ∧ NVBOOT_AES_BLOCK_LENGTH_BYTES ∣ offsetof_RandomAesBlock 544 560 :=
  ⟨by decide,
    (unsigned_section_aes_block_multiple 544 560 (by decide) (by decide)).2.2.2.2⟩

/-! ### C13 -/

/-- C13: `NvBootLoaderInfo` is AES-block aligned.  Its four `NvU32` members
occupy exactly 16 bytes, that is one 128-bit AES block, so an array of `n`
descriptors occupies `16 * n` bytes, for every `n` and in particular for `n` up to
`NVBOOT_MAX_BOOTLOADERS = 4`, where the whole `BootLoader` table takes 64 bytes. -/
theorem NvBootLoaderInfo_is_one_aes_block (n : Nat) :
    sizeof_NvBootLoaderInfo = 16
      ∧ sizeof_NvBootLoaderInfo = NVBOOT_AES_BLOCK_LENGTH_BYTES
      ∧ 8 * sizeof_NvBootLoaderInfo = 128
      ∧ n * sizeof_NvBootLoaderInfo = 16 * n
      ∧ NVBOOT_MAX_BOOTLOADERS = 4
      ∧ NVBOOT_MAX_BOOTLOADERS * sizeof_NvBootLoaderInfo = 64 := by
  refine ⟨rfl, rfl, rfl, ?_, rfl, rfl⟩
  rw [show sizeof_NvBootLoaderInfo = 16 from rfl]
  exact Nat.mul_comm n 16

/-! ### C14 -/

/-- C14, evaluated on the constants of the header: the CustomerData area is 52
words, 208 bytes, not the 298 words and 1192 bytes of the documented space
budget. -/
theorem customer_data_is_52_words :
    NVBOOT_BCT_CUSTOMER_DATA_WORDS = 52
      ∧ NVBOOT_BCT_CUSTOMER_DATA_SIZE = 208
      ∧ NVBOOT_BCT_CUSTOMER_DATA_WORDS ≠ 298
      ∧ NVBOOT_BCT_CUSTOMER_DATA_SIZE ≠ 1192 := by
  decide

/-! ### C15 -/

/-- C15, evaluated on the constants of the header: the SBK encrypt and decrypt
slots are one slot, key slot 0; the SSK encrypt and decrypt slots are one slot
too, but it is key slot 4, neither key slot 2 nor key slot 3. -/
theorem ssk_slot_is_key_slot_4 :
    NVBOOT_SBK_DECRYPT_SLOT = NVBOOT_SBK_ENCRYPT_SLOT
      ∧ (NVBOOT_SBK_ENCRYPT_SLOT = 0 ∨ NVBOOT_SBK_ENCRYPT_SLOT = 1)
      ∧ NVBOOT_SSK_DECRYPT_SLOT = NVBOOT_SSK_ENCRYPT_SLOT
      ∧ NVBOOT_SSK_ENCRYPT_SLOT = 4
      ∧ ¬ (NVBOOT_SSK_ENCRYPT_SLOT = 2 ∨ NVBOOT_SSK_ENCRYPT_SLOT = 3) := by
  decide

/-! ### C16 -/

/-- C16, evaluated on the macro: for every pair of address-map values
`NVBOOT_BL_IRAM_SIZE` is one more than `NVBOOT_BL_IRAM_END - NVBOOT_BL_IRAM_START`,
so it never is the number of bytes of the half-open range.  On the map with IRAM
A at `0x40000000` and the limit of IRAM D at `0x4003FFFF` the range is
well-formed, the difference is `0x2FFFF` and the size is `0x30000`. -/
theorem NVBOOT_BL_IRAM_SIZE_is_difference_plus_one :
    (∀ a d : Int, NVBOOT_BL_IRAM_SIZE a d
        = (NVBOOT_BL_IRAM_END d - NVBOOT_BL_IRAM_START a) + 1)
      ∧ (∀ a d : Int, NVBOOT_BL_IRAM_SIZE a d
          ≠ NVBOOT_BL_IRAM_END d - NVBOOT_BL_IRAM_START a)
      ∧ NVBOOT_BL_IRAM_START 0x40000000 ≤ NVBOOT_BL_IRAM_END 0x4003FFFF
      ∧ NVBOOT_BL_IRAM_END 0x4003FFFF - NVBOOT_BL_IRAM_START 0x40000000 = 0x2FFFF
      ∧ NVBOOT_BL_IRAM_SIZE 0x40000000 0x4003FFFF = 0x30000 := by
  refine ⟨fun a d => rfl, ?_, by decide, by decide, by decide⟩
  intro a d
  unfold NVBOOT_BL_IRAM_SIZE
  omega

/-! ### C17 -/

theorem NV_MIN_eq_min (a b : Nat) : NV_MIN a b = min a b := by
  unfold NV_MIN
  split <;> omega

theorem ememLoWindow_lt (limit base : Nat) : ememLoWindow limit base < 2 ^ 32 :=
  Nat.mod_lt _ (by decide)

/-- C17: `NvBootBRSdramQueryTotalSize` never wraps in 32 bits and returns whole
mebibytes.  With `W` the 32-bit window `LIMIT - BASE` and `m` the value returned
by `NvBootSdramQueryTotalMB`, the result is `min (W >> 20) m * 2^20`, where
`min (W >> 20) m < 2^12` so that the product is below `2^32`; it is a multiple of
`2^20`, and it equals `m * 2^20` exactly when `m ≤ W >> 20`.  For
`BASE ≤ LIMIT < 2^32` the window is the plain difference. -/
theorem NvBootBRSdramQueryTotalSize_whole_mebibytes (limit base m : Nat) :
    NvBootBRSdramQueryTotalSize limit base m
        = min (ememLoWindow limit base >>> 20) m * 2 ^ 20
      ∧ min (ememLoWindow limit base >>> 20) m < 2 ^ 12
      ∧ min (ememLoWindow limit base >>> 20) m * 2 ^ 20 < 2 ^ 32
      ∧ 2 ^ 20 ∣ NvBootBRSdramQueryTotalSize limit base m
      ∧ (NvBootBRSdramQueryTotalSize limit base m = m * 2 ^ 20
          ↔ m ≤ ememLoWindow limit base >>> 20)
      ∧ (base ≤ limit → limit < 2 ^ 32 → ememLoWindow limit base = limit - base) := by
  have hw : ememLoWindow limit base < 2 ^ 32 := ememLoWindow_lt limit base
  have hs : ememLoWindow limit base >>> 20 < 2 ^ 12 := by
    rw [Nat.shiftRight_eq_div_pow]
    omega
  have hm : min (ememLoWindow limit base >>> 20) m < 2 ^ 12 := by omega
  have hlt : min (ememLoWindow limit base >>> 20) m * 2 ^ 20 < 2 ^ 32 := by omega
  have hres : NvBootBRSdramQueryTotalSize limit base m
      = min (ememLoWindow limit base >>> 20) m * 2 ^ 20 := by
    show (NV_MIN (ememLoWindow limit base >>> 20) m <<< 20) % 2 ^ 32 = _
    rw [NV_MIN_eq_min, Nat.shiftLeft_eq, Nat.mod_eq_of_lt hlt]
  refine ⟨hres, hm, hlt, ?_, ?_, ?_⟩
  · rw [hres]
    exact ⟨_, Nat.mul_comm _ _⟩
  · rw [hres]
    constructor
    · intro h
      omega
    · intro h
      rw [Nat.min_eq_right h]
  · intro hb hl
    exact emem_window_eq limit base hb hl

/-! ### C18 -/

/-- C18: the parameter-set maxima are powers of two indexable by straps.
`NVBOOT_BCT_MAX_PARAM_SETS = 1 << 0` and `NVBOOT_BCT_MAX_SDRAM_SETS = 1 << 2`, so
every 2-bit SDRAM strap value and every 0-bit device strap value is below the
maximum and indexes an entry of an array of that capacity, as `SdramParams` and
`DevParams` are declared. -/
theorem parameter_set_maxima_are_strap_powers :
    NVBOOT_BCT_MAX_PARAM_SETS = 1 <<< 0
      ∧ NVBOOT_BCT_MAX_SDRAM_SETS = 1 <<< 2
      ∧ (∀ v, v < 2 ^ 0 → v < NVBOOT_BCT_MAX_PARAM_SETS)
      ∧ (∀ v, v < 2 ^ 2 → v < NVBOOT_BCT_MAX_SDRAM_SETS)
      ∧ (∀ t : NvBootConfigTable, t.DevParams.length = NVBOOT_BCT_MAX_PARAM_SETS →
          ∀ v, v < 2 ^ 0 → (t.DevParams[v]?).isSome = true)
      ∧ (∀ t : NvBootConfigTable, t.SdramParams.length = NVBOOT_BCT_MAX_SDRAM_SETS →
          ∀ v, v < 2 ^ 2 → (t.SdramParams[v]?).isSome = true) := by
  refine ⟨rfl, rfl, fun v hv => hv, fun v hv => hv, ?_, ?_⟩
  · intro t ht v hv
    have hlt : v < t.DevParams.length := by rw [ht]; exact hv
    rw [List.getElem?_eq_getElem hlt]
    rfl
  · intro t ht v hv
    have hlt : v < t.SdramParams.length := by rw [ht]; exact hv
    rw [List.getElem?_eq_getElem hlt]
    rfl

end T214
